import Mathlib

/-!
Verification of the document-ai-search scripts (search_documents.py and
file_reader.py): a shallow embedding of the path-scoring heuristic, the
extraction layer with its truncation and error handling, the merge/filter/sort
pipeline and the CLI exit codes, together with theorems settling the stated
properties.

Python strings are sequences of Unicode code points; we model them as lists of
characters (`Str`).  Fallible Python code (raising exceptions) is modelled with
`Except`.  The external pieces the scripts call (pypdf, pytesseract, the
sub-readers dispatched by extension, the delegated AI analysis) are modelled as
explicit inputs describing their outcomes, so that each function of the
repository is a total function of the file contents and of those outcomes.
-/

/-- Python strings as lists of code points. -/
abbrev Str := List Char

/-- Whitespace for the Python `strip` method and the regex class `\s`
(ASCII part; the claims only involve ASCII separators). -/
def isPySpace (c : Char) : Bool := c.isWhitespace || c = '\x0B' || c = '\x0C'

/-- Python `s.strip()`: drop whitespace from both ends. -/
def pyStrip (s : Str) : Str :=
  ((s.dropWhile isPySpace).reverse.dropWhile isPySpace).reverse

/-- Python `s.lower()` (ASCII case folding suffices for the claims). -/
def lowerStr (s : Str) : Str := s.map Char.toLower

/-- The separator class of `re.split` in `_query_matches_path`:
whitespace, comma, CJK comma, ideographic comma, semicolon, CJK semicolon. -/
def isQuerySep (c : Char) : Bool :=
  isPySpace c || c = ',' || c = '，' || c = '、' || c = ';' || c = '；'

/-- Python substring containment `needle in hay`, as a Bool. -/
def strIn (needle hay : Str) : Bool := decide (needle <:+: hay)

/-- A file path as the orchestrator sees it: the names of all directories on
the path (outermost first, including every component of the folder argument)
and the filename. -/
structure DocPath where
  dirs : List Str
  filename : Str
deriving DecidableEq, Repr

/-- Python `str(file)`: the components joined by the path separator. -/
def pathString (p : DocPath) : Str := List.intercalate ['/'] (p.dirs ++ [p.filename])

/-- The lowercased names of `file.parents`, immediate parent first.  The
terminal parent (`.` or `/`) has the empty name, which we keep for fidelity:
a non-empty term can never occur in it. -/
def parentNames (p : DocPath) : List Str := (p.dirs.map lowerStr).reverse ++ [[]]

/-- The query terms of `_query_matches_path`:
`re.split` on the separator class, then `t.strip().lower()` for the pieces
whose `strip` is non-empty. -/
def splitQuery (q : Str) : List Str :=
  (q.splitOnP isQuerySep).filterMap fun t =>
    if pyStrip t = [] then none else some (lowerStr (pyStrip t))

/-- The relevance increment for one matched term in `_query_matches_path`
(lines 131-147): 40 when the term occurs in the lowercased filename, else 30
when it occurs in the name of some parent directory, else 20. -/
def termRelevance (p : DocPath) (term : Str) : Nat :=
  if strIn term (lowerStr p.filename) then 40
  else if (parentNames p).any (fun d => strIn term d) then 30
  else 20

/-- `DocumentSearcher._query_matches_path`: returns
(is_match, matched_terms, relevance_score). -/
def queryMatchesPath (query : Str) (p : DocPath) : Bool × List Str × Nat :=
  let pathStr := lowerStr (pathString p)
  let terms := splitQuery query
  let matched := terms.filter fun t => strIn t pathStr
  if matched = [] then (false, [], 0)
  else (true, matched, min (matched.foldl (fun acc t => acc + termRelevance p t) 0) 100)

namespace DocumentReader

/-- `DocumentReader.MAX_CHARS`. -/
def MAX_CHARS : Nat := 100000

/-- The marker appended by `DocumentReader.read` when it truncates. -/
def truncationMarker : Str := "\n\n[Content truncated...]".toList

/-- The truncation step of `DocumentReader.read` (lines 63-65): texts longer
than `MAX_CHARS` are cut at `MAX_CHARS` characters and the marker is appended. -/
def truncateContent (text : Str) : Str :=
  if text.length > MAX_CHARS then text.take MAX_CHARS ++ truncationMarker else text

end DocumentReader

/-- A Python exception as seen by `DocumentReader.read`: either the typed
`ReadError` of file_reader.py or any other exception (with its class name
and message). -/
inductive PyExc where
  | readError (msg : Str)
  | unhandled (excName msg : Str)
deriving DecidableEq, Repr

namespace DocumentReader

/-- The keys of the dispatch table in `DocumentReader.read`. -/
def supportedExtensions : List Str :=
  [".txt", ".pdf", ".docx", ".doc", ".xlsx", ".xls",
   ".jpg", ".jpeg", ".png", ".md"].map String.toList

/-- `DocumentReader.read`: dispatch on the lowercased extension, truncate a
successful result, re-raise `ReadError` unchanged, and wrap any other
exception of the sub-reader into a `ReadError` carrying the filename, the
exception class name and its message.  The sub-reader outcome is a
parameter. -/
def read (ext fileName : Str) (subReader : Except PyExc Str) : Except PyExc Str :=
  if lowerStr ext ∉ supportedExtensions then
    .error (.readError ("Unsupported format: ".toList ++ lowerStr ext))
  else
    match subReader with
    | .ok text => .ok (truncateContent text)
    | .error (.readError m) => .error (.readError m)
    | .error (.unhandled n m) =>
        .error (.readError (fileName ++ ": ".toList ++ n ++ ": ".toList ++ m))

end DocumentReader

deriving instance DecidableEq for Except

/-- A PDF input as `DocumentReader._read_pdf` observes it through pypdf:
whether `reader.is_encrypted` holds, whether `reader.decrypt` on the empty
password raises, and the outcome of `page.extract_text()` per page. -/
structure PdfFile where
  encrypted : Bool
  decryptEmptyRaises : Bool
  pages : List (Except Str Str)
deriving DecidableEq, Repr

namespace DocumentReader

/-- The per-page step of `_read_pdf` (lines 102-109): keep a non-blank
extracted page, emit an inline error line for a failing page, skip blank
pages. -/
def pageText (pageNum : Nat) (page : Except Str Str) : Option Str :=
  match page with
  | .ok t => if t ≠ [] ∧ pyStrip t ≠ [] then some t else none
  | .error e =>
      some ("[Page ".toList ++ (toString pageNum).toList ++ " error: ".toList
        ++ e ++ "]".toList)

/-- `DocumentReader._read_pdf` (lines 91-116): an encrypted file whose
empty-password decryption raises yields the encrypted `ReadError`; otherwise
the page texts are joined, and a blank result is the image-only `ReadError`. -/
def readPdf (f : PdfFile) : Except Str Str :=
  if f.encrypted ∧ f.decryptEmptyRaises then
    .error "Encrypted PDF (password protected)".toList
  else
    let parts := (List.enumFrom 1 f.pages).filterMap fun np => pageText np.1 np.2
    let text := List.intercalate "\n\n".toList parts
    if pyStrip text = [] then
      .error "No text content found (may be image-only PDF)".toList
    else .ok text

end DocumentReader

/-- The outcome of one `pytesseract.image_to_string` call: extracted text, a
`TesseractError`, or any other exception (also standing for a failing
`Image.open`). -/
inductive OcrOutcome where
  | ok (text : Str)
  | tessError (msg : Str)
  | otherError (msg : Str)
deriving DecidableEq, Repr

/-- The inline marker `_read_image` returns when OCR fails (line 357). -/
def ocrFailMarker (excMsg : Str) : Str :=
  "[OCR failed: ".toList ++ excMsg ++ "]".toList

namespace DocumentReader

/-- `DocumentReader._read_image` (lines 316-357) as a function of the outcomes
of the Chinese-plus-English attempt and of the English-only fallback: a
`TesseractError` of the first attempt triggers the fallback; blank text is the
no-text `ReadError`; any other engine failure is returned as the inline
marker instead of being raised. -/
def readImage (chi eng : OcrOutcome) : Except Str Str :=
  match chi with
  | .ok t =>
      if pyStrip t = [] then .error "No text could be extracted from image".toList
      else .ok t
  | .tessError _ =>
      match eng with
      | .ok t =>
          if pyStrip t = [] then .error "No text could be extracted from image".toList
          else .ok t
      | .tessError m => .ok (ocrFailMarker m)
      | .otherError m => .ok (ocrFailMarker m)
  | .otherError m => .ok (ocrFailMarker m)

end DocumentReader

/-- The combined score of `DocumentSearcher.search` lines 308-312:
`int(min(100, content_relevance + path_relevance * 0.3))`.
The model computes in exact integer arithmetic: for every path score this
program produces (a sum of 40/30/20 increments capped at 100, hence a
multiple of 10 at most 100) and natural content score, evaluating
`content + path * 0.3` in IEEE double precision rounds to the exact rational
value `content + 3 * path / 10` (checked for each of the eleven reachable
path values), so the Python float expression and the rational one have the
same value and in particular the same `int` truncation; `int(min(100, x))`
equals `min 100 (floor x)`, and for natural inputs that floor is
`(10 * content + 3 * path) / 10` in natural division. -/
def combinedRelevance (contentRel pathRel : Nat) : Nat :=
  min 100 ((10 * contentRel + 3 * pathRel) / 10)

/-- A file discovered by `discover_files`, described by its directory
components below the search root, its name, and the outcome of
`self.reader.read(file)` on it (extracted text, or the message of the raised
`ReadError`). -/
structure FileEntry where
  subDirs : List Str
  filename : Str
  extraction : Except Str Str
deriving DecidableEq, Repr

/-- The full path of a discovered file: `rglob` results carry the folder
argument as given on the command line, so the components of the folder
argument sit above the components below the root. -/
def fileDocPath (rootDirs : List Str) (f : FileEntry) : DocPath :=
  ⟨rootDirs ++ f.subDirs, f.filename⟩

/-- Python `str(file)`, the key of `path_match_results`. -/
def fullKey (rootDirs : List Str) (f : FileEntry) : Str :=
  pathString (fileDocPath rootDirs f)

/-- Python `str(file.relative_to(self.folder))`, used in the error list and
in the path-only excerpt. -/
def relKey (f : FileEntry) : Str := pathString ⟨f.subDirs, f.filename⟩

/-- One entry of the structured response of the external semantic reasoner
(`analyze_with_claude` output as merged in `search`). -/
structure Analysis where
  file : Str
  relevance : Nat
  summary : Str
  excerpts : List Str
deriving DecidableEq, Repr

/-- One merged result dict of `search`.  Keys a branch does not set are
`none` / `[]`, matching `result.get` with its defaults in the report. -/
structure SearchResult where
  file : Str
  relevance : Nat
  summary : Str
  excerpts : List Str
  matchSources : List Str
  matchedTerms : List Str
  pathRelevance : Option Nat
  contentRelevance : Option Nat
deriving DecidableEq, Repr

/-- The tag `path` of `match_sources`. -/
def pathTag : Str := "path".toList

/-- The tag `content` of `match_sources`. -/
def contentTag : Str := "content".toList

/-- The value stored in `path_match_results` for a matching file. -/
structure PathInfo where
  file : FileEntry
  pathRelevance : Nat
  matchedTerms : List Str
deriving DecidableEq, Repr

/-- Step 1.5 of `search` (lines 238-247): the insertion-ordered dict from
`str(file)` to the path-match data of every matching file. -/
def pathMatchResults (rootDirs : List Str) (query : Str) (files : List FileEntry) :
    List (Str × PathInfo) :=
  files.filterMap fun f =>
    let r := queryMatchesPath query (fileDocPath rootDirs f)
    if r.1 then some (fullKey rootDirs f, ⟨f, r.2.2, r.2.1⟩) else none

/-- Step 2 of `search` (lines 255-266): the documents whose extraction
succeeded with non-blank content, in discovery order. -/
def extractedDocuments (files : List FileEntry) : List (FileEntry × Str) :=
  files.filterMap fun f =>
    match f.extraction with
    | .ok c => if pyStrip c = [] then none else some (f, c)
    | .error _ => none

/-- The error list built by `extract_content` (lines 98-104): one entry per
file whose read raised `ReadError`, keyed by the path relative to the
folder. -/
def extractionErrors (files : List FileEntry) : List (Str × Str) :=
  files.filterMap fun f =>
    match f.extraction with
    | .ok _ => none
    | .error e => some (relKey f, e)

/-- `content_analyzed_files` (line 295): a dict comprehension over the
analysis list, so a later entry with the same file key overwrites an earlier
one. -/
def lookupAnalysis (analyses : List Analysis) (key : Str) : Option Analysis :=
  analyses.foldl (fun acc a => if a.file = key then some a else acc) none

/-- The result built for a file with both a path match and a content
analysis (`search` lines 301-319). -/
def combineEntry (key : Str) (info : PathInfo) (a : Analysis) : SearchResult where
  file := key
  relevance := combinedRelevance a.relevance info.pathRelevance
  summary := a.summary
  excerpts := a.excerpts
  matchSources := [pathTag, contentTag]
  matchedTerms := info.matchedTerms
  pathRelevance := some info.pathRelevance
  contentRelevance := some a.relevance

/-- The result built for a file with only a path match (`search` lines
320-329). -/
def pathOnlyEntry (key : Str) (info : PathInfo) : SearchResult where
  file := key
  relevance := info.pathRelevance
  summary := "文件/文件夹名包含: ".toList ++ List.intercalate ", ".toList info.matchedTerms
  excerpts := ["路径匹配: ".toList ++ relKey info.file]
  matchSources := [pathTag]
  matchedTerms := info.matchedTerms
  pathRelevance := none
  contentRelevance := none

/-- The result passed through for a content-only analysis (`search` lines
331-336). -/
def contentOnlyEntry (a : Analysis) : SearchResult where
  file := a.file
  relevance := a.relevance
  summary := a.summary
  excerpts := a.excerpts
  matchSources := [contentTag]
  matchedTerms := []
  pathRelevance := none
  contentRelevance := none

/-- Step 4 of `search` (lines 293-336): merge the path matches with the
analyses of the external reasoner (the `all_analyses` list, which the
standalone script leaves empty), then append the content-only analyses. -/
def finalResults (rootDirs : List Str) (query : Str) (files : List FileEntry)
    (analyses : List Analysis) : List SearchResult :=
  let pms := pathMatchResults rootDirs query files
  (pms.map fun kp =>
    match lookupAnalysis analyses kp.1 with
    | some a => combineEntry kp.1 kp.2 a
    | none => pathOnlyEntry kp.1 kp.2)
  ++ analyses.filterMap fun a =>
      if (pms.map Prod.fst).contains a.file then none else some (contentOnlyEntry a)

/-- `DocumentSearcher.RELEVANCE_THRESHOLD`. -/
def RELEVANCE_THRESHOLD : Nat := 30

/-- The comparison of `matched.sort(key=relevance, reverse=True)`: a stable
sort into non-increasing relevance. -/
def relevanceLe (a b : SearchResult) : Bool := b.relevance ≤ a.relevance

/-- The filter and sort of `search` (lines 338-343). -/
def searchMatched (rootDirs : List Str) (query : Str) (files : List FileEntry)
    (analyses : List Analysis) : List SearchResult :=
  ((finalResults rootDirs query files analyses).filter
    fun r => RELEVANCE_THRESHOLD ≤ r.relevance).mergeSort relevanceLe

/-- The observable outcome of one `DocumentSearcher.search` run: the matched
list it returns and the error list that `generate_report` renders as the
skipped-files section. -/
def searchRun (rootDirs : List Str) (query : Str) (files : List FileEntry)
    (analyses : List Analysis) : List SearchResult × List (Str × Str) :=
  (searchMatched rootDirs query files analyses, extractionErrors files)

/-- `main` of search_documents.py (lines 503-535): exit 1 when the folder
does not exist or is not a directory; otherwise the run completes and both
final branches call `sys.exit(0)`, with any number of results. -/
def searchMainExit (folderExists folderIsDir : Bool) (results : List SearchResult) : Nat :=
  if folderExists = false then 1
  else if folderIsDir = false then 1
  else
    match results with
    | [] => 0
    | _ :: _ => 0

/-- `main` of file_reader.py (lines 360-386): exit 1 when no file argument
is given, when the file does not exist, or when `reader.read` raises
`ReadError`; a successful read falls off the end of the script (exit 0). -/
def fileReaderMainExit (fileArgGiven fileExists : Bool)
    (readResult : Except PyExc Str) : Nat :=
  if fileArgGiven = false then 1
  else if fileExists = false then 1
  else
    match readResult with
    | .ok _ => 0
    | .error _ => 1

/-- The per-term score exactly as the specification words it: 40 when the
term occurs in the filename itself, 30 when it does not but occurs in the
name of some ancestor directory, else 20. -/
def specTermScore (p : DocPath) (t : Str) : Nat :=
  if strIn t (lowerStr p.filename) then 40
  else if p.dirs.any (fun d => strIn t (lowerStr d)) then 30
  else 20

/-- A query string that `_query_matches_path` splits into exactly the one
term it is: non-empty, free of separators, and already lowercase. -/
def cleanTerm (t : Str) : Prop :=
  t ≠ [] ∧ (∀ c ∈ t, isQuerySep c = false) ∧ lowerStr t = t

instance (t : Str) : Decidable (cleanTerm t) := by
  unfold cleanTerm; infer_instance

/-! ## Helper lemmas -/

theorem strIn_iff {t s : Str} : strIn t s = true ↔ t <:+: s := by
  simp [strIn]

theorem dropWhile_eq_self_of {p : Char → Bool} {l : Str}
    (h : ∀ c ∈ l, p c = false) : l.dropWhile p = l := by
  cases l with
  | nil => rfl
  | cons a t => simp [List.dropWhile_cons, h a (List.mem_cons_self a t)]

theorem pyStrip_eq_self {s : Str} (h : ∀ c ∈ s, isPySpace c = false) :
    pyStrip s = s := by
  unfold pyStrip
  rw [dropWhile_eq_self_of h, dropWhile_eq_self_of, List.reverse_reverse]
  intro c hc
  exact h c (by simpa using hc)

theorem splitQuery_single {t : Str} (h : cleanTerm t) : splitQuery t = [t] := by
  obtain ⟨h1, h2, h3⟩ := h
  have hsp : ∀ c ∈ t, isPySpace c = false := by
    intro c hc
    have := h2 c hc
    unfold isQuerySep at this
    simp only [Bool.or_eq_false_iff] at this
    exact this.1.1.1.1.1
  unfold splitQuery
  rw [List.splitOnP_eq_single]
  · simp [pyStrip_eq_self hsp, h1, h3]
  · intro c hc
    simp [h2 c hc]

theorem mem_splitQuery_ne_nil {t q : Str} (h : t ∈ splitQuery q) : t ≠ [] := by
  unfold splitQuery at h
  obtain ⟨x, -, hx⟩ := List.mem_filterMap.mp h
  by_cases hs : pyStrip x = []
  · simp [hs] at hx
  · simp only [hs, if_false, Option.some_inj] at hx
    subst hx
    simpa [lowerStr] using hs

theorem mem_infix_intercalate {xs : List Str} {d : Str} (sep : Str) (h : d ∈ xs) :
    d <:+: List.intercalate sep xs := by
  induction xs with
  | nil => cases h
  | cons x tl ih =>
    cases tl with
    | nil =>
      simp only [List.mem_singleton] at h
      subst h
      simp [List.intercalate]
    | cons y tl2 =>
      have hstep : List.intercalate sep (x :: y :: tl2)
          = x ++ sep ++ List.intercalate sep (y :: tl2) := by
        simp [List.intercalate, List.intersperse, List.append_assoc]
      rcases List.mem_cons.mp h with h | h
      · subst h
        exact ⟨[], sep ++ List.intercalate sep (y :: tl2), by simp [hstep]⟩
      · have := ih h
        rw [hstep]
        exact this.trans ⟨x ++ sep, [], by simp⟩

theorem lower_component_within {p : DocPath} {d : Str}
    (h : d ∈ p.dirs ++ [p.filename]) :
    lowerStr d <:+: lowerStr (pathString p) :=
  List.IsInfix.map Char.toLower (mem_infix_intercalate ['/'] h)

theorem strIn_pathString_of_component {p : DocPath} {d t : Str}
    (hd : d ∈ p.dirs ++ [p.filename]) (ht : strIn t (lowerStr d) = true) :
    strIn t (lowerStr (pathString p)) = true :=
  strIn_iff.mpr ((strIn_iff.mp ht).trans (lower_component_within hd))

theorem termRelevance_eq_spec {p : DocPath} {t : Str} (ht : t ≠ []) :
    termRelevance p t = specTermScore p t := by
  unfold termRelevance specTermScore parentNames
  have hnil : strIn t [] = false := by
    simp only [strIn, decide_eq_false_iff_not]
    intro h
    exact ht (List.eq_nil_of_infix_nil h)
  have hany : (((p.dirs.map lowerStr).reverse ++ [[]]).any fun d => strIn t d)
      = p.dirs.any fun d => strIn t (lowerStr d) := by
    simp [List.any_append, List.any_reverse, List.any_map, hnil, Function.comp_def]
  rw [hany]

theorem foldl_add_eq_sum {f : Str → Nat} :
    ∀ (l : List Str) (n : Nat),
      l.foldl (fun acc t => acc + f t) n = n + (l.map f).sum := by
  intro l
  induction l with
  | nil => simp
  | cons x tl ih =>
    intro n
    simp [List.foldl_cons, ih, Nat.add_assoc]

/-! ## C1: per-term path scores -/

/-- C1.  The lexical path score of `_query_matches_path` is the sum over the
matched terms of the per-term score worded in the spec (40 in the filename,
else 30 in an ancestor directory name, else 20), capped at 100; a clean
single-term query occurring in the filename scores exactly 40, and one
occurring in the immediate parent directory but not in the filename scores
exactly 30. -/
theorem path_term_scores :
    (∀ (q : Str) (p : DocPath),
      (queryMatchesPath q p).2.2
        = min (((queryMatchesPath q p).2.1.map (specTermScore p)).sum) 100)
    ∧ (∀ (t : Str) (p : DocPath), cleanTerm t →
        strIn t (lowerStr p.filename) = true →
        queryMatchesPath t p = (true, [t], 40))
    ∧ (∀ (t fn d : Str) (ds : List Str), cleanTerm t →
        strIn t (lowerStr d) = true → strIn t (lowerStr fn) = false →
        queryMatchesPath t ⟨ds ++ [d], fn⟩ = (true, [t], 30)) := by
  refine ⟨?_, ?_, ?_⟩
  · intro q p
    unfold queryMatchesPath
    by_cases h : (splitQuery q).filter (fun t => strIn t (lowerStr (pathString p))) = []
    · simp [h]
    · simp only [h, if_false]
      have hsum : ∀ t ∈ (splitQuery q).filter
          (fun t => strIn t (lowerStr (pathString p))),
          termRelevance p t = specTermScore p t := by
        intro t hmem
        exact termRelevance_eq_spec (mem_splitQuery_ne_nil (List.mem_filter.mp hmem).1)
      rw [foldl_add_eq_sum, Nat.zero_add, List.map_congr_left hsum]
  · intro t p ht hf
    have hsq := splitQuery_single ht
    have hpath : strIn t (lowerStr (pathString p)) = true :=
      strIn_pathString_of_component (by simp) hf
    unfold queryMatchesPath
    rw [hsq]
    simp [List.filter, hpath, termRelevance, hf]
  · intro t fn d ds ht hd hf
    have hsq := splitQuery_single ht
    have hdir : d ∈ DocPath.dirs ⟨ds ++ [d], fn⟩ ++ [fn] := by simp
    have hpath : strIn t (lowerStr (pathString ⟨ds ++ [d], fn⟩)) = true :=
      strIn_pathString_of_component hdir hd
    unfold queryMatchesPath
    rw [hsq]
    have hterm : termRelevance ⟨ds ++ [d], fn⟩ t = 30 := by
      rw [termRelevance_eq_spec ht.1]
      unfold specTermScore
      have hany : ((ds ++ [d]).any fun x => strIn t (lowerStr x)) = true :=
        List.any_eq_true.mpr ⟨d, by simp, hd⟩
      simp [hf, hany]
    simp [List.filter, hpath, hterm]

/-- Witness for C1 at concrete inputs: the query `report` on `docs/report.pdf`
scores 40, and the query `budget` on `budget2024/notes.txt` scores 30. -/
theorem path_term_scores_witness :
    queryMatchesPath "report".toList ⟨["docs".toList], "report.pdf".toList⟩
        = (true, ["report".toList], 40)
    ∧ queryMatchesPath "budget".toList ⟨["home".toList] ++ ["budget2024".toList],
        "notes.txt".toList⟩ = (true, ["budget".toList], 30) :=
  ⟨path_term_scores.2.1 "report".toList ⟨["docs".toList], "report.pdf".toList⟩
      (by decide) (by decide),
   path_term_scores.2.2 "budget".toList "notes.txt".toList "budget2024".toList
      ["home".toList] (by decide) (by decide) (by decide)⟩

/-! ## C10: terms occurring above the search root -/

/-- C10.  Path matching tests terms against the full path as built from the
folder argument: a clean term occurring in the name of a directory component
of the folder argument itself, and not in the filename, matches any
discovered file and contributes 30. -/
theorem root_ancestor_term_matches (rootDirs : List Str) (d t : Str)
    (f : FileEntry) (hmem : d ∈ rootDirs) (ht : cleanTerm t)
    (hd : strIn t (lowerStr d) = true)
    (hf : strIn t (lowerStr f.filename) = false) :
    queryMatchesPath t (fileDocPath rootDirs f) = (true, [t], 30) := by
  have hsq := splitQuery_single ht
  have hdir : d ∈ (fileDocPath rootDirs f).dirs ++ [(fileDocPath rootDirs f).filename] := by
    simp [fileDocPath, hmem]
  have hpath : strIn t (lowerStr (pathString (fileDocPath rootDirs f))) = true :=
    strIn_pathString_of_component hdir hd
  have hterm : termRelevance (fileDocPath rootDirs f) t = 30 := by
    rw [termRelevance_eq_spec ht.1]
    unfold specTermScore
    have hroot : (rootDirs.any fun x => strIn t (lowerStr x)) = true :=
      List.any_eq_true.mpr ⟨d, hmem, hd⟩
    simp [fileDocPath, hf, hroot]
  unfold queryMatchesPath
  rw [hsq]
  simp [List.filter, hpath, hterm]

/-- Witness for C10: the term `archive` names a directory above the search
root `archive/projects`; the file `projects/readme.md` under that root
matches with score 30. -/
theorem root_ancestor_term_matches_witness :
    queryMatchesPath "archive".toList
        (fileDocPath ["archive".toList, "projects".toList]
          ⟨[], "readme.md".toList, Except.ok []⟩)
      = (true, ["archive".toList], 30) :=
  root_ancestor_term_matches ["archive".toList, "projects".toList]
    "archive".toList "archive".toList ⟨[], "readme.md".toList, Except.ok []⟩
    (by decide) (by decide) (by decide) (by decide)

/-! ## C3: truncation ceiling -/

/-- C3.  Whatever text `DocumentReader.read` returns is at most `MAX_CHARS`
plus the marker length long, and a raw text over the ceiling is returned as
its first `MAX_CHARS` characters with the marker appended. -/
theorem extraction_truncation :
    (∀ (ext fileName : Str) (sub : Except PyExc Str) (t : Str),
      DocumentReader.read ext fileName sub = .ok t →
      t.length ≤ DocumentReader.MAX_CHARS + DocumentReader.truncationMarker.length)
    ∧ (∀ raw : Str, raw.length > DocumentReader.MAX_CHARS →
      DocumentReader.truncateContent raw
        = raw.take DocumentReader.MAX_CHARS ++ DocumentReader.truncationMarker) := by
  have hlen : ∀ raw : Str, (DocumentReader.truncateContent raw).length
      ≤ DocumentReader.MAX_CHARS + DocumentReader.truncationMarker.length := by
    intro raw
    unfold DocumentReader.truncateContent
    by_cases h : raw.length > DocumentReader.MAX_CHARS
    · simp only [h, if_true, List.length_append, List.length_take]
      omega
    · simp only [h, if_false]
      omega
  refine ⟨?_, ?_⟩
  · intro ext fileName sub t h
    unfold DocumentReader.read at h
    by_cases hext : lowerStr ext ∉ DocumentReader.supportedExtensions
    · simp [hext] at h
    · simp only [hext, if_false] at h
      match sub with
      | .ok text =>
        simp only [Except.ok.injEq] at h
        exact h ▸ hlen text
      | .error (.readError m) => simp at h
      | .error (.unhandled n m) => simp at h
  · intro raw h
    unfold DocumentReader.truncateContent
    simp [h]

/-- Witness for C3: a read of a 100001-character text returns exactly the
ceiling plus the marker, and the truncation equation holds there. -/
theorem extraction_truncation_witness :
    DocumentReader.truncateContent (List.replicate 100001 'a')
      = (List.replicate 100001 'a').take DocumentReader.MAX_CHARS
        ++ DocumentReader.truncationMarker :=
  extraction_truncation.2 (List.replicate 100001 'a')
    (by simp only [List.length_replicate, DocumentReader.MAX_CHARS, gt_iff_lt]; omega)

/-! ## C5: OCR failure is non-fatal -/

/-- OCR engine failure as the claim scopes it: the first attempt raised a
non-Tesseract exception, or it raised a `TesseractError` and the
English-only fallback also raised. -/
def ocrEngineFailed (chi eng : OcrOutcome) : Prop :=
  match chi with
  | .ok _ => False
  | .otherError _ => True
  | .tessError _ =>
      match eng with
      | .ok _ => False
      | .tessError _ => True
      | .otherError _ => True

instance (chi eng : OcrOutcome) : Decidable (ocrEngineFailed chi eng) := by
  unfold ocrEngineFailed
  cases chi with
  | ok t => exact inferInstanceAs (Decidable False)
  | tessError m => cases eng <;> infer_instance
  | otherError m => exact inferInstanceAs (Decidable True)

/-- C5.  When OCR fails, `_read_image` returns the inline error marker
instead of raising: the result is `ok` and carries the `[OCR failed: ...]`
string. -/
theorem ocr_failure_nonfatal (chi eng : OcrOutcome)
    (h : ocrEngineFailed chi eng) :
    ∃ m : Str, DocumentReader.readImage chi eng = .ok (ocrFailMarker m) := by
  unfold DocumentReader.readImage
  cases chi with
  | ok t => exact absurd h (by simp [ocrEngineFailed])
  | otherError m => exact ⟨m, rfl⟩
  | tessError m =>
    cases eng with
    | ok t => exact absurd h (by simp [ocrEngineFailed])
    | tessError m2 => exact ⟨m2, rfl⟩
    | otherError m2 => exact ⟨m2, rfl⟩

/-- Witness for C5: both OCR attempts raising yields the inline marker. -/
theorem ocr_failure_nonfatal_witness :
    ∃ m : Str, DocumentReader.readImage (.tessError "no chi_sim".toList)
      (.tessError "tesseract not found".toList) = .ok (ocrFailMarker m) :=
  ocr_failure_nonfatal (.tessError "no chi_sim".toList)
    (.tessError "tesseract not found".toList) (by decide)

/-! ## C7: typed errors only, batch never aborted -/

/-- A read outcome that is either text or the typed `ReadError`, never an
unhandled exception. -/
def typedOutcome : Except PyExc Str → Prop
  | .ok _ => True
  | .error (.readError _) => True
  | .error (.unhandled _ _) => False

theorem mem_extractionErrors {files : List FileEntry} {f : FileEntry} {e : Str}
    (hf : f ∈ files) (he : f.extraction = .error e) :
    (relKey f, e) ∈ extractionErrors files := by
  unfold extractionErrors
  refine List.mem_filterMap.mpr ⟨f, hf, ?_⟩
  rw [he]

/-- C7.  `DocumentReader.read` returns text or a `ReadError` for every
sub-reader outcome (any other exception is wrapped); the orchestrator
records the error of every failed file in the error list; and the documents
and errors of a batch split as the concatenation of the parts, so an error
in one file never aborts the processing of the remaining files. -/
theorem typed_errors_batch :
    (∀ (ext fileName : Str) (sub : Except PyExc Str),
      typedOutcome (DocumentReader.read ext fileName sub))
    ∧ (∀ (files : List FileEntry) (f : FileEntry) (e : Str),
      f ∈ files → f.extraction = .error e →
      (relKey f, e) ∈ extractionErrors files)
    ∧ (∀ fs1 fs2 : List FileEntry,
      extractionErrors (fs1 ++ fs2) = extractionErrors fs1 ++ extractionErrors fs2
      ∧ extractedDocuments (fs1 ++ fs2)
        = extractedDocuments fs1 ++ extractedDocuments fs2) := by
  refine ⟨?_, ?_, ?_⟩
  · intro ext fileName sub
    unfold DocumentReader.read
    by_cases hext : lowerStr ext ∉ DocumentReader.supportedExtensions
    · simp [hext, typedOutcome]
    · simp only [hext, if_false]
      match sub with
      | .ok text => trivial
      | .error (.readError m) => trivial
      | .error (.unhandled n m) => trivial
  · intro files f e hf he
    exact mem_extractionErrors hf he
  · intro fs1 fs2
    exact ⟨List.filterMap_append .., List.filterMap_append ..⟩

/-- Witness for C7: a wrapped `ValueError` on one file of a two-file batch is
recorded while the other file is still extracted. -/
theorem typed_errors_batch_witness :
    ("bad.pdf".toList, "boom".toList) ∈ extractionErrors
      [⟨[], "bad.pdf".toList, .error "boom".toList⟩,
       ⟨[], "good.txt".toList, .ok "hello".toList⟩] :=
  typed_errors_batch.2.1
    [⟨[], "bad.pdf".toList, .error "boom".toList⟩,
     ⟨[], "good.txt".toList, .ok "hello".toList⟩]
    ⟨[], "bad.pdf".toList, .error "boom".toList⟩ "boom".toList
    (by decide) rfl

/-! ## C8: CLI exit codes -/

/-- C8.  The search CLI exits 0 on every completed run whatever the match
count, and exits 1 exactly when the folder does not exist or is not a
directory; the standalone file reader exits 0 exactly when an argument is
given, the file exists and the read succeeds, and in particular a read
error exits 1. -/
theorem cli_exit_codes :
    (∀ results : List SearchResult, searchMainExit true true results = 0)
    ∧ (∀ (e d : Bool) (results : List SearchResult),
        searchMainExit e d results = 1 ↔ (e = false ∨ d = false))
    ∧ (∀ (arg ex : Bool) (r : Except PyExc Str),
        fileReaderMainExit arg ex r = 0
          ↔ (arg = true ∧ ex = true ∧ ∃ t, r = .ok t))
    ∧ (∀ m : PyExc, fileReaderMainExit true true (.error m) = 1) := by
  refine ⟨?_, ?_, ?_, ?_⟩
  · intro results
    cases results <;> rfl
  · intro e d results
    cases e <;> cases d <;> cases results <;> simp [searchMainExit]
  · intro arg ex r
    cases arg <;> cases ex <;> cases r <;> simp [fileReaderMainExit]
  · intro m
    rfl

/-- Witness for C8 at concrete inputs: an empty result list still exits 0,
and a `ReadError` in single-file mode exits 1. -/
theorem cli_exit_codes_witness :
    searchMainExit true true [] = 0
    ∧ fileReaderMainExit true true (.error (.readError "Encrypted PDF".toList)) = 1 :=
  ⟨cli_exit_codes.1 [], cli_exit_codes.2.2.2 (.readError "Encrypted PDF".toList)⟩

/-! ## C2 and C9: the combined score -/

theorem dvd_termRelevance (p : DocPath) (t : Str) : 10 ∣ termRelevance p t := by
  unfold termRelevance
  split
  · decide
  · split <;> decide

theorem pathRelevance_mul_ten (q : Str) (p : DocPath) :
    10 ∣ (queryMatchesPath q p).2.2 := by
  unfold queryMatchesPath
  by_cases h : (splitQuery q).filter (fun t => strIn t (lowerStr (pathString p))) = []
  · simp [h]
  · simp only [h, if_false]
    rw [foldl_add_eq_sum, Nat.zero_add]
    have hs : 10 ∣ (((splitQuery q).filter
        (fun t => strIn t (lowerStr (pathString p)))).map (termRelevance p)).sum := by
      refine List.dvd_sum ?_
      intro x hx
      obtain ⟨t, -, rfl⟩ := List.mem_map.mp hx
      exact dvd_termRelevance p t
    rcases min_cases (((splitQuery q).filter
        (fun t => strIn t (lowerStr (pathString p)))).map (termRelevance p)).sum 100 with
      ⟨h1, -⟩ | ⟨h1, -⟩ <;> rw [h1]
    · exact hs
    · decide

/-- C2.  Every path score `_query_matches_path` produces is a multiple of
ten; for such scores the stored combined value equals the exact
`min(100, content + 0.3 * path)` (as a rational, with no rounding error);
the merged entry stores exactly that value; and the example of the spec,
content 70 with path 50, combines to 85. -/
theorem combined_score_formula :
    (∀ (q : Str) (p : DocPath), 10 ∣ (queryMatchesPath q p).2.2)
    ∧ (∀ (c p : Nat), 10 ∣ p →
        ((combinedRelevance c p : ℚ) = min 100 ((c : ℚ) + (3 / 10) * (p : ℚ))))
    ∧ (∀ (key : Str) (info : PathInfo) (a : Analysis),
        (combineEntry key info a).relevance
          = combinedRelevance a.relevance info.pathRelevance)
    ∧ combinedRelevance 70 50 = 85 := by
  refine ⟨pathRelevance_mul_ten, ?_, fun key info a => rfl, by decide⟩
  intro c p hp
  obtain ⟨k, rfl⟩ := hp
  have h1 : combinedRelevance c (10 * k) = min 100 (c + 3 * k) := by
    unfold combinedRelevance
    congr 1
    omega
  have h2 : (3 / 10 : ℚ) * ((10 * k : ℕ) : ℚ) = ((3 * k : ℕ) : ℚ) := by
    push_cast
    ring
  rw [h1, Nat.cast_min, h2]
  push_cast
  ring_nf

/-- Witness for C2: the spec example, path 50 and content 70, at the exact
rational formula. -/
theorem combined_score_formula_witness :
    (combinedRelevance 70 50 : ℚ) = min 100 ((70 : ℚ) + (3 / 10) * (50 : ℚ)) :=
  combined_score_formula.2.1 70 50 (by decide)

/-- C9, counterexample.  At content 90 and path 45, `0.3 * 45` is not a
whole number, yet the reported score is not strictly below the real-valued
combined score: both are exactly 100 because the cap clamps first. -/
theorem int_truncation_counterexample :
    ¬ (10 ∣ (3 * 45 : ℕ))
    ∧ (combinedRelevance 90 45 : ℚ) = min 100 ((90 : ℚ) + (3 / 10) * (45 : ℚ))
    ∧ ¬ ((combinedRelevance 90 45 : ℚ) < min 100 ((90 : ℚ) + (3 / 10) * (45 : ℚ))) := by
  have h100 : ((combinedRelevance 90 45 : ℕ) : ℚ) = 100 := by
    norm_num [combinedRelevance]
  have hmin : min (100 : ℚ) ((90 : ℚ) + (3 / 10) * (45 : ℚ)) = 100 := by
    rw [min_eq_left (by norm_num)]
  refine ⟨by decide, ?_, ?_⟩
  · rw [h100, hmin]
  · rw [h100, hmin]
    exact lt_irrefl 100

/-- C9, amended.  The stored relevance is the floor (here equal to the
`int()` truncation, all values being non-negative) of
`min(100, content + 0.3 * path)`; when `0.3 * path` is not a whole number
and the uncapped sum stays below 100, the reported score is strictly below
the real-valued combined score; at content 70 and path 45 the report shows
83, not 83.5. -/
theorem int_truncation_amended :
    (∀ c p : Nat, combinedRelevance c p
        = Nat.floor (min (100 : ℚ) ((c : ℚ) + (3 / 10) * (p : ℚ))))
    ∧ (∀ c p : Nat, ¬ (10 ∣ 3 * p) → ((c : ℚ) + (3 / 10) * (p : ℚ)) < 100 →
        (combinedRelevance c p : ℚ) < (c : ℚ) + (3 / 10) * (p : ℚ))
    ∧ combinedRelevance 70 45 = 83 := by
  refine ⟨?_, ?_, by decide⟩
  · intro c p
    have harg : (c : ℚ) + (3 / 10) * (p : ℚ)
        = ((10 * c + 3 * p : ℕ) : ℚ) / ((10 : ℕ) : ℚ) := by
      push_cast
      ring
    rw [harg]
    unfold combinedRelevance
    rcases le_total (((10 * c + 3 * p : ℕ) : ℚ) / ((10 : ℕ) : ℚ)) 100 with h | h
    · rw [min_eq_right h, Nat.floor_div_nat, Nat.floor_natCast]
      have hm : ((10 * c + 3 * p : ℕ) : ℚ) ≤ 1000 := by
        rw [div_le_iff₀ (by norm_num : (0 : ℚ) < ((10 : ℕ) : ℚ))] at h
        norm_num at h
        exact_mod_cast h
      have hm2 : 10 * c + 3 * p ≤ 1000 := by exact_mod_cast hm
      exact min_eq_right (by omega)
    · rw [min_eq_left h]
      have hm : (1000 : ℚ) ≤ ((10 * c + 3 * p : ℕ) : ℚ) := by
        rw [le_div_iff₀ (by norm_num : (0 : ℚ) < ((10 : ℕ) : ℚ))] at h
        norm_num at h
        exact_mod_cast h
      have hm2 : 1000 ≤ 10 * c + 3 * p := by exact_mod_cast hm
      rw [min_eq_left (by omega)]
      simp
  · intro c p hdvd hlt
    have hmod : (10 * c + 3 * p) % 10 ≠ 0 := by
      have h3 : 3 * p % 10 ≠ 0 := fun h => hdvd (Nat.dvd_of_mod_eq_zero h)
      omega
    have harg : (c : ℚ) + (3 / 10) * (p : ℚ)
        = ((10 * c + 3 * p : ℕ) : ℚ) / 10 := by
      push_cast
      ring
    have hlt10 : ((10 * c + 3 * p : ℕ) : ℚ) / 10 < 100 := harg ▸ hlt
    have hm1000 : 10 * c + 3 * p < 1000 := by
      rw [div_lt_iff₀ (by norm_num : (0 : ℚ) < 10)] at hlt10
      norm_num at hlt10
      exact_mod_cast hlt10
    unfold combinedRelevance
    rw [min_eq_right (by omega : (10 * c + 3 * p) / 10 ≤ 100), harg]
    have h10 : 10 * ((10 * c + 3 * p) / 10) < 10 * c + 3 * p := by omega
    have h10q : (10 : ℚ) * (((10 * c + 3 * p) / 10 : ℕ) : ℚ)
        < ((10 * c + 3 * p : ℕ) : ℚ) := by exact_mod_cast h10
    linarith

/-- Witness for C9 amended: content 70 and path 45 reports strictly below
the real-valued 83.5. -/
theorem int_truncation_amended_witness :
    (combinedRelevance 70 45 : ℚ) < (70 : ℚ) + (3 / 10) * (45 : ℚ) :=
  int_truncation_amended.2.1 70 45 (by decide) (by norm_num)

/-! ## C4: threshold filter and descending sort -/

theorem relevanceLe_trans (a b c : SearchResult)
    (hab : relevanceLe a b) (hbc : relevanceLe b c) : relevanceLe a c := by
  simp only [relevanceLe, decide_eq_true_iff] at *
  omega

theorem relevanceLe_total (a b : SearchResult) :
    relevanceLe a b || relevanceLe b a := by
  simp only [relevanceLe, Bool.or_eq_true, decide_eq_true_iff]
  omega

/-- C4.  The list `search` returns is a permutation of the merged results
whose relevance reaches the threshold 30 — membership in it is exactly
membership in the merged results with relevance at least 30, whatever the
provenance fields hold — and it is sorted by non-increasing relevance. -/
theorem matched_filter_sort (rootDirs : List Str) (query : Str)
    (files : List FileEntry) (analyses : List Analysis) :
    ((searchRun rootDirs query files analyses).1.Perm
      ((finalResults rootDirs query files analyses).filter
        fun r => RELEVANCE_THRESHOLD ≤ r.relevance))
    ∧ (∀ r : SearchResult, r ∈ (searchRun rootDirs query files analyses).1
        ↔ r ∈ finalResults rootDirs query files analyses
          ∧ RELEVANCE_THRESHOLD ≤ r.relevance)
    ∧ (searchRun rootDirs query files analyses).1.Pairwise
        fun a b => b.relevance ≤ a.relevance := by
  refine ⟨List.mergeSort_perm _ _, ?_, ?_⟩
  · intro r
    simp only [searchRun, searchMatched, List.mem_mergeSort, List.mem_filter,
      decide_eq_true_iff]
  · have h := List.sorted_mergeSort
      (fun a b c => relevanceLe_trans a b c) relevanceLe_total
      ((finalResults rootDirs query files analyses).filter
        fun r => RELEVANCE_THRESHOLD ≤ r.relevance)
    exact h.imp fun hab => by simpa [relevanceLe, decide_eq_true_iff] using hab

/-! ## C6: encrypted PDFs -/

/-- An encrypted PDF on which `reader.decrypt` with the empty password
raises, as a password-locked file does. -/
def lockedPdf : PdfFile := ⟨true, true, []⟩

/-- An encrypted PDF on which `reader.decrypt` with the empty password
succeeds (for instance one locked only by an owner password) and whose one
page extracts text. -/
def ownerLockedPdf : PdfFile := ⟨true, false, [Except.ok "hello world".toList]⟩

/-- The discovered file `report.pdf` whose extraction outcome is the read of
the locked PDF. -/
def lockedPdfEntry : FileEntry :=
  ⟨[], "report.pdf".toList, DocumentReader.readPdf lockedPdf⟩

/-- C6, counterexample.  An encrypted PDF whose empty-password decryption
succeeds is read as text, not as an encrypted error; and a locked
`report.pdf`, searched for `report`, does raise the encrypted error and sits
in the skipped list, yet still appears among the matched documents (as a
path-only match with score 40), contradicting that an encrypted PDF appears
only in the skipped-files section. -/
theorem encrypted_pdf_counterexample :
    DocumentReader.readPdf ownerLockedPdf = .ok "hello world".toList
    ∧ DocumentReader.readPdf lockedPdf
        = .error "Encrypted PDF (password protected)".toList
    ∧ (searchRun [] "report".toList [lockedPdfEntry] []).2
        = [("report.pdf".toList, "Encrypted PDF (password protected)".toList)]
    ∧ ((searchRun [] "report".toList [lockedPdfEntry] []).1.map SearchResult.file)
        = ["report.pdf".toList] := by
  refine ⟨by decide, by decide, by decide, ?_⟩
  have h : (finalResults [] "report".toList [lockedPdfEntry] []).filter
      (fun r => decide (RELEVANCE_THRESHOLD ≤ r.relevance))
      = [pathOnlyEntry "report.pdf".toList ⟨lockedPdfEntry, 40, ["report".toList]⟩] := by
    decide
  simp only [searchRun, searchMatched]
  rw [h, List.mergeSort_singleton]
  decide

/-- C6, amended.  An encrypted PDF whose empty-password decryption raises
yields exactly the encrypted `ReadError`; in a standalone end-to-end run
(no semantic analyses) every file whose read raised lands in the
skipped-files list, and every matched document is a path-only match — so an
encrypted PDF is never matched through content, though it may still appear
among the matched documents via its path. -/
theorem encrypted_pdf_amended :
    (∀ f : PdfFile, f.encrypted = true → f.decryptEmptyRaises = true →
      DocumentReader.readPdf f = .error "Encrypted PDF (password protected)".toList)
    ∧ (∀ (files : List FileEntry) (f : FileEntry) (e : Str)
        (rootDirs : List Str) (q : Str),
      f ∈ files → f.extraction = .error e →
      (relKey f, e) ∈ (searchRun rootDirs q files []).2)
    ∧ (∀ (rootDirs : List Str) (q : Str) (files : List FileEntry) (r : SearchResult),
      r ∈ (searchRun rootDirs q files []).1 → r.matchSources = [pathTag]) := by
  refine ⟨?_, ?_, ?_⟩
  · intro f h1 h2
    unfold DocumentReader.readPdf
    simp [h1, h2]
  · intro files f e rootDirs q hf he
    exact mem_extractionErrors hf he
  · intro rootDirs q files r hr
    simp only [searchRun, searchMatched, List.mem_mergeSort, List.mem_filter] at hr
    have hr2 := hr.1
    have hnone : ∀ key : Str, lookupAnalysis [] key = none := fun _ => rfl
    unfold finalResults at hr2
    simp only [hnone, List.filterMap_nil, List.append_nil] at hr2
    obtain ⟨kp, -, rfl⟩ := List.mem_map.mp hr2
    rfl

/-- Witness for C6 amended, at the locked `report.pdf` searched for
`report`: the read is the encrypted error, the skipped list holds the file,
and the one matched result is path-only. -/
theorem encrypted_pdf_amended_witness :
    DocumentReader.readPdf lockedPdf
        = .error "Encrypted PDF (password protected)".toList
    ∧ ("report.pdf".toList, "Encrypted PDF (password protected)".toList)
        ∈ (searchRun [] "report".toList [lockedPdfEntry] []).2
    ∧ (pathOnlyEntry "report.pdf".toList
        ⟨lockedPdfEntry, 40, ["report".toList]⟩).matchSources = [pathTag] := by
  refine ⟨encrypted_pdf_amended.1 lockedPdf rfl rfl, ?_, ?_⟩
  · have he : lockedPdfEntry.extraction
        = .error "Encrypted PDF (password protected)".toList := by decide
    exact encrypted_pdf_amended.2.1 [lockedPdfEntry] lockedPdfEntry
      "Encrypted PDF (password protected)".toList [] "report".toList
      (List.mem_singleton.mpr rfl) he
  · exact encrypted_pdf_amended.2.2 [] "report".toList [lockedPdfEntry]
      (pathOnlyEntry "report.pdf".toList ⟨lockedPdfEntry, 40, ["report".toList]⟩)
      (by
        simp only [searchRun, searchMatched, List.mem_mergeSort, List.mem_filter]
        refine ⟨?_, by decide⟩
        decide)
